import Mathlib

/-!
Verification development for the WhisperLive Railway wrapper
(src/railway_wrapper.py) and the file-upload transcription endpoint
(src/whisper_api_server.py).

The Python code is shallowly embedded: handlers become pure functions over
explicit request/state values, the asyncio-scheduled supervisor becomes a
step function driven by an arbitrary schedule of task activations, and the
two relay loops become list-processing functions plus a lock-step
small-step machine.  External collaborators (the spawned child process,
the hosting platform, the Whisper model, Python float parsing) appear as
parameters of the embedded functions.
-/

namespace WhisperLive

/-- JSON-ish values appearing in the HTTP response bodies of both servers. -/
inductive JVal where
  | str : String → JVal
  | num : Rat → JVal
  | strList : List String → JVal
deriving DecidableEq, Repr

/-- An HTTP response: a status code and a JSON object body given as an
ordered field list, as built by aiohttp web.json_response / Flask jsonify. -/
structure Response where
  status : Nat
  body : List (String × JVal)
deriving DecidableEq, Repr

/-- ASCII-level model of the Python str.lower method, as applied to header
values and file extensions in the sources. -/
def pyLower (s : String) : String := String.mk (s.toList.map Char.toLower)

end WhisperLive

namespace RailwayWrapper

open WhisperLive

/-- Byte payloads are opaque to the relay; modelled as lists of naturals. -/
abbrev Bytes := List Nat

/-- An incoming event on the aiohttp (external) websocket leg, as
discriminated by the relay loop in src/railway_wrapper.py lines 104-111:
WSMsgType.TEXT carries a str, WSMsgType.BINARY carries bytes,
WSMsgType.ERROR signals a protocol error, and any other WSMsgType value
(PING, PONG, CLOSING, ...) is bucketed as other, tagged by its numeric
type code. -/
inductive WSMsg where
  | text : String → WSMsg
  | binary : Bytes → WSMsg
  | error : WSMsg
  | other : Nat → WSMsg
deriving DecidableEq, Repr

/-- Whether an external-leg event is a WSMsgType.ERROR event. -/
def WSMsg.isErr : WSMsg → Bool
  | .error => true
  | _ => false

/-- A websocket frame: text or binary, the two kinds that exist on the
wire.  The websockets library (internal leg) represents an incoming text
frame as str and an incoming binary frame as bytes, and dispatches an
outgoing send on the Python type of the payload. -/
inductive Frame where
  | text : String → Frame
  | binary : Bytes → Frame
deriving DecidableEq, Repr

/-- The data frame carried by an external-leg event, if any. -/
def frameOf : WSMsg → Option Frame
  | .text d => some (Frame.text d)
  | .binary d => some (Frame.binary d)
  | .error => none
  | .other _ => none

/-- Injection of a frame into the external-leg event type: a text frame
arrives as a WSMsgType.TEXT message, a binary frame as WSMsgType.BINARY. -/
def msgOfFrame : Frame → WSMsg
  | .text s => WSMsg.text s
  | .binary b => WSMsg.binary b

/-- Batch semantics of the client_to_server coroutine
(src/railway_wrapper.py lines 102-113): iterate over the external leg;
a TEXT message's str payload is sent to the internal leg (the websockets
send of a str produces a text frame), a BINARY message's bytes payload is
sent (producing a binary frame), an ERROR message logs and leaves the
loop, and every other message type is ignored by the if/elif chain so the
loop just continues.  The result is the list of frames delivered to the
internal leg, in order. -/
def client_to_server : List WSMsg → List Frame
  | [] => []
  | WSMsg.text d :: rest => Frame.text d :: client_to_server rest
  | WSMsg.binary d :: rest => Frame.binary d :: client_to_server rest
  | WSMsg.error :: _ => []
  | WSMsg.other _ :: rest => client_to_server rest

/-- Batch semantics of the server_to_client coroutine
(src/railway_wrapper.py lines 115-123): iterate over the internal leg;
a str message is forwarded with send_str (a text frame to the client), a
bytes message with send_bytes (a binary frame).  Every incoming message
from the websockets library is either str or bytes, so the isinstance
chain is total on this type. -/
def server_to_client : List Frame → List Frame
  | [] => []
  | Frame.text s :: rest => Frame.text s :: server_to_client rest
  | Frame.binary b :: rest => Frame.binary b :: server_to_client rest

/-! Small-step machine for the two concurrently scheduled relay loops.
The proxy runs client_to_server and server_to_client under asyncio.gather
(src/railway_wrapper.py lines 125-130) with return_exceptions=True: gather
never cancels one coroutine because the other finished, and it resolves
only once both have finished.  Each global step lets each still-running
loop handle one event from its own leg; a loop finishes when its leg
yields its close (end of stream) or, for the external loop, an ERROR
event.  This machine describes the regime in which both connections stay
open throughout the run, so every forward succeeds; the closure-coupled
session machine further below additionally models sends failing once the
opposite connection has closed. -/

/-- State of one relay loop: the events not yet received on its leg, the
frames it has forwarded so far, and whether the loop has exited. -/
structure LoopState (α β : Type) where
  rem : List α
  sent : List β
  done : Bool
deriving DecidableEq, Repr

/-- One scheduling step of the client_to_server loop (lines 102-113):
if the loop already exited it stays exited; an exhausted leg ends the
async-for; TEXT and BINARY payloads are forwarded; ERROR logs and leaves
via break; any other message type falls through the if/elif chain and the
loop continues. -/
def extLoopStep (s : LoopState WSMsg Frame) : LoopState WSMsg Frame :=
  if s.done then s else
  match s.rem with
  | [] => { s with done := true }
  | WSMsg.text d :: rest => { s with rem := rest, sent := s.sent ++ [Frame.text d] }
  | WSMsg.binary d :: rest => { s with rem := rest, sent := s.sent ++ [Frame.binary d] }
  | WSMsg.error :: rest => { s with rem := rest, done := true }
  | WSMsg.other _ :: rest => { s with rem := rest }

/-- One scheduling step of the server_to_client loop (lines 115-123):
str messages are forwarded with send_str, bytes with send_bytes; the loop
exits when the internal leg is exhausted. -/
def intLoopStep (s : LoopState Frame Frame) : LoopState Frame Frame :=
  if s.done then s else
  match s.rem with
  | [] => { s with done := true }
  | Frame.text d :: rest => { s with rem := rest, sent := s.sent ++ [Frame.text d] }
  | Frame.binary d :: rest => { s with rem := rest, sent := s.sent ++ [Frame.binary d] }

/-- Iterate a step function a given number of scheduling rounds. -/
def runLoop {σ : Type} (f : σ → σ) : Nat → σ → σ
  | 0, s => s
  | t + 1, s => runLoop f t (f s)

/-- Joint state of the relay: the pair of loop states. -/
def RelayState := LoopState WSMsg Frame × LoopState Frame Frame

/-- One gather scheduling round: both loops run with equal priority, each
advancing by one step on its own leg. -/
def relayStep (s : RelayState) : RelayState := (extLoopStep s.1, intLoopStep s.2)

/-- The relay after t scheduling rounds, started on the given event
streams of the external and internal legs. -/
def relayRun (ext : List WSMsg) (int : List Frame) (t : Nat) : RelayState :=
  runLoop relayStep t (⟨ext, [], false⟩, ⟨int, [], false⟩)

/-- The gather call resolves, and with it the whole proxy session, only
once both loops are done. -/
def relayDone (s : RelayState) : Bool := s.1.done && s.2.done

/-- Number of scheduling rounds the client_to_server loop takes to exit on
a given external stream: one round per event strictly before the first
ERROR, plus the final round that observes the ERROR or the closed
stream. -/
def extFin (msgs : List WSMsg) : Nat :=
  (msgs.takeWhile (fun m => !m.isErr)).length + 1

/-- Number of scheduling rounds the server_to_client loop takes to exit:
one per frame plus the final round observing the closed stream. -/
def intFin (msgs : List Frame) : Nat := msgs.length + 1

/-! Closure-coupled session machine.  The machine above describes the
join behaviour of gather in the regime where both connections stay open
for the whole run, every forward succeeding.  Settling teardown timing
needs two further aspects of the source.  First, a loop blocked in its
async-for consumes wall clock while nothing arrives, so here each leg is
a timed stream with one entry per scheduling round: none means no event
arrived that round (the async-for stays blocked), and exhaustion of the
stream means the peer has closed the connection.  Second, a forward to a
closed connection fails: once the internal connection has closed,
server_ws.send at lines 106 and 108 raises ConnectionClosed, which the
except at lines 112-113 catches, ending client_to_server; symmetrically,
client_ws.send_str and send_bytes at lines 119 and 121 raise once the
external connection has closed, ending server_to_client through the
except at lines 122-123. -/

/-- Joint state of the closure-coupled session: the timed streams not yet
consumed on each leg, the frames forwarded so far in each direction, and
the exit flag of each loop. -/
structure SessState where
  extRem : List (Option WSMsg)
  intRem : List (Option Frame)
  toInt : List Frame
  toExt : List Frame
  extDone : Bool
  intDone : Bool
deriving DecidableEq, Repr

/-- One round of client_to_server (lines 102-113) under closure coupling:
an exhausted leg means the external peer closed and the async-for ends;
an idle round leaves the loop blocked; a data message is forwarded to the
internal leg unless the internal connection is already closed, in which
case the send raises ConnectionClosed and the except ends the loop;
ERROR logs and breaks; other message types fall through and the loop
continues. -/
def sessExtStep (intClosed : Bool) (s : SessState) : SessState :=
  if s.extDone then s else
  match s.extRem with
  | [] => { s with extDone := true }
  | none :: rest => { s with extRem := rest }
  | some (WSMsg.text d) :: rest =>
    if intClosed then { s with extRem := rest, extDone := true }
    else { s with extRem := rest, toInt := s.toInt ++ [Frame.text d] }
  | some (WSMsg.binary d) :: rest =>
    if intClosed then { s with extRem := rest, extDone := true }
    else { s with extRem := rest, toInt := s.toInt ++ [Frame.binary d] }
  | some WSMsg.error :: rest => { s with extRem := rest, extDone := true }
  | some (WSMsg.other _) :: rest => { s with extRem := rest }

/-- One round of server_to_client (lines 115-123) under closure coupling:
an exhausted leg means the internal server closed and the loop ends; an
idle round leaves the loop blocked; a frame is forwarded to the external
leg unless the external connection is already closed, in which case
send_str or send_bytes raises and the except ends the loop. -/
def sessIntStep (extClosed : Bool) (s : SessState) : SessState :=
  if s.intDone then s else
  match s.intRem with
  | [] => { s with intDone := true }
  | none :: rest => { s with intRem := rest }
  | some f :: rest =>
    if extClosed then { s with intRem := rest, intDone := true }
    else { s with intRem := rest, toExt := s.toExt ++ [f] }

/-- One gather round of the coupled session: both loops advance with
equal priority, each seeing whether the opposite connection was already
closed at the start of the round (a connection is closed once its timed
stream is exhausted). -/
def sessStep (s : SessState) : SessState :=
  let ic := s.intRem.isEmpty
  let ec := s.extRem.isEmpty
  sessIntStep ec (sessExtStep ic s)

/-- The coupled session after t rounds on the given timed streams. -/
def sessRun (extS : List (Option WSMsg)) (intS : List (Option Frame))
    (t : Nat) : SessState :=
  runLoop sessStep t ⟨extS, intS, [], [], false, false⟩

/-- gather resolves, and with it the session teardown happens, once both
loops have exited. -/
def sessDone (s : SessState) : Bool := s.extDone && s.intDone

/-- Claim C3 as stated, over the coupled machine: some fixed bound B has
every session torn down within B rounds of the first leg closing (a leg
closes when its timed stream is exhausted). -/
def boundedSessTeardown : Prop :=
  ∃ B : Nat, ∀ (extS : List (Option WSMsg)) (intS : List (Option Frame)),
    sessDone (sessRun extS intS (min extS.length intS.length + B)) = true

/-! Supervisor: ensure_whisper_server (src/railway_wrapper.py lines
80-92).  The child process handle is modelled by an optional process
identifier; the non-blocking poll of a pid is an external map from pids to
optional exit codes (None while the process is alive). -/

/-- Command line of the spawned backend (lines 84-88): bound to the fixed
internal port 9091 with the faster_whisper backend. -/
def spawnArgs : List String :=
  ["run_server.py", "--port", "9091", "--backend", "faster_whisper"]

/-- The spawn condition at line 82: no process is tracked yet, or the
tracked process has exited (poll returns an exit code rather than None). -/
def ensureCond (dead : Nat → Option Int) : Option Nat → Bool
  | none => true
  | some p => (dead p).isSome

/-- Result of one sequential call to ensure_whisper_server: the new
tracked process, whether a spawn happened, the command line passed to
subprocess.Popen if so, and how many seconds the call sleeps before
returning. -/
structure EnsureResult where
  server : Option Nat
  spawnedNew : Bool
  args : Option (List String)
  sleepSeconds : Nat
deriving DecidableEq, Repr

/-- Sequential semantics of ensure_whisper_server (lines 80-92): when the
spawn condition holds, a fresh process is started with spawnArgs and the
call sleeps 3 seconds before returning; otherwise the call returns at
once, spawning nothing and keeping the tracked process. -/
def ensure_whisper_server (dead : Nat → Option Int) (nextPid : Nat)
    (server : Option Nat) : EnsureResult :=
  if ensureCond dead server then
    { server := some nextPid, spawnedNew := true, args := some spawnArgs,
      sleepSeconds := 3 }
  else
    { server := server, spawnedNew := false, args := none, sleepSeconds := 0 }

/-! Concurrent supervisor model for the duplicate-spawn question.  Each
inbound connection runs ensure_whisper_server in its own asyncio task.
Lines 82-88 contain no await point, so under the cooperative asyncio
scheduler the liveness check, the Popen call and the assignment to
self.whisper_server execute as one atomic step; the only suspension point
of the call is the await asyncio.sleep(3) at line 91.  A task is thus a
two-step program (check-and-maybe-spawn, then sleep), and a system run is
an arbitrary interleaving, given by a schedule of task activations. -/

/-- Shared supervisor state plus the program counter of every task.
pc 0: about to run the atomic check-and-spawn block; pc 1: sleeping in
asyncio.sleep(3) after having spawned; pc 2: returned. -/
structure SupSystem where
  whisper_server : Option Nat
  nextPid : Nat
  spawned : List Nat
  tasks : Nat → Nat

/-- Initial system: no process tracked (the backend has not started), no
spawns recorded, every task about to run its check. -/
def initSys : SupSystem :=
  { whisper_server := none, nextPid := 0, spawned := [], tasks := fun _ => 0 }

/-- Activation of task i among N tasks: run its next step.  The pc-0 step
is the atomic check-and-spawn block of lines 82-88; the pc-1 step is the
completion of the sleep at line 91; a finished task does nothing. -/
def stepTask (dead : Nat → Option Int) (N : Nat) (s : SupSystem) (i : Nat) :
    SupSystem :=
  if i < N then
    match s.tasks i with
    | 0 =>
      if ensureCond dead s.whisper_server then
        { whisper_server := some s.nextPid, nextPid := s.nextPid + 1,
          spawned := s.spawned ++ [s.nextPid],
          tasks := fun j => if j = i then 1 else s.tasks j }
      else
        { s with tasks := fun j => if j = i then 2 else s.tasks j }
    | 1 => { s with tasks := fun j => if j = i then 2 else s.tasks j }
    | _ => s
  else s

/-- Run the system from the initial state along a schedule of task
activations. -/
def runSched (dead : Nat → Option Int) (N : Nat) (sched : List Nat) :
    SupSystem :=
  sched.foldl (stepTask dead N) initSys

/-- Number of spawned backend processes still alive. -/
def liveCount (dead : Nat → Option Int) (s : SupSystem) : Nat :=
  (s.spawned.filter (fun p => (dead p).isNone)).length

/-- Poll map of a world in which no spawned process ever exits. -/
def noneDead : Nat → Option Int := fun _ => none

/-- Invariant used for the exactly-one-spawn argument, under a poll map
where processes do not exit: the spawn list is empty until a process is
tracked, is exactly the tracked process afterwards, and any task past its
check has witnessed a tracked process. -/
def SpawnInv (s : SupSystem) : Prop :=
  (s.whisper_server = none → s.spawned = [])
  ∧ (∀ p, s.whisper_server = some p → s.spawned = [p])
  ∧ (∀ j, s.tasks j ≠ 0 → s.whisper_server.isSome = true)

/-- Invariant used for the at-most-one-live argument, for an arbitrary
poll map: spawned pids are fresh and distinct, and every spawned process
other than the currently tracked one has exited. -/
def LiveInv (dead : Nat → Option Int) (s : SupSystem) : Prop :=
  (∀ p ∈ s.spawned, p < s.nextPid)
  ∧ s.spawned.Nodup
  ∧ (∀ p ∈ s.spawned, s.whisper_server ≠ some p → (dead p).isSome = true)

/-! Proxy and connection handler (src/railway_wrapper.py lines 47-133). -/

/-- Outcome of proxy_websocket (lines 94-133): the frames forwarded in
each direction, whether the internal connection was closed again by the
async-with block, and whether an error was logged.  If the connect to
ws://localhost:9091 fails, the exception is caught by the except at lines
132-133 (logged, nothing relayed, no internal connection to close);
otherwise both loops run under gather and the async-with closes the
internal connection once gather resolves.  Every exception inside the
loops is caught by their own try/except blocks, so proxy_websocket never
raises. -/
structure ProxyOutcome where
  toInt : List Frame
  toExt : List Frame
  serverClosed : Bool
  errorLogged : Bool
deriving DecidableEq, Repr

/-- Embedding of proxy_websocket: parameterised by the outcome of the
websockets.connect call and the event streams of the two legs. -/
def proxy_websocket (connect : Except String Unit) (ext : List WSMsg)
    (int : List Frame) : ProxyOutcome :=
  match connect with
  | .error _ =>
    { toInt := [], toExt := [], serverClosed := false, errorLogged := true }
  | .ok _ =>
    { toInt := client_to_server ext, toExt := server_to_client int,
      serverClosed := true, errorLogged := false }

/-- Body of the plain-GET service info response (lines 52-57). -/
def serviceInfoBody (port : Nat) : List (String × JVal) :=
  [("service", JVal.str "WhisperLive WebSocket Server"),
   ("status", JVal.str "running"),
   ("backend", JVal.str "faster_whisper"),
   ("websocket_url", JVal.str ("ws://localhost:" ++ toString port ++ "/"))]

/-- What happened to one upgraded session: whether the except clause at
lines 72-74 closed the external websocket, whether aiohttp closed it while
finalising the returned WebSocketResponse (web_protocol calls write_eof on
the returned response, which closes a websocket response), whether an
error was logged, and the frames relayed in each direction. -/
structure SessionOutcome where
  closedInExcept : Bool
  closedOnFinalize : Bool
  errorLogged : Bool
  toInt : List Frame
  toExt : List Frame
deriving DecidableEq, Repr

/-- Value produced by websocket_handler: either the service-info JSON
response of the non-upgrade branch, or the returned websocket with its
session outcome. -/
inductive HandlerResult where
  | info : Response → HandlerResult
  | ws : SessionOutcome → HandlerResult
deriving DecidableEq, Repr

/-- Embedding of websocket_handler (lines 47-78).  Parameters beyond the
request: the supervisor state (tracked process, fresh pid, poll map),
whether ws.prepare raises (line 61, outside the try block, so such an
exception escapes the handler), whether subprocess.Popen raises inside
ensure_whisper_server (in which case nothing was assigned and the except
clause at lines 72-74 logs and closes the external websocket), the
outcome of websockets.connect, and the two event streams.  The result is
an Except: an error value means an exception escaped the handler. -/
def websocket_handler (port nextPid : Nat) (upgradeHdr : Option String)
    (server : Option Nat) (dead : Nat → Option Int)
    (prepareRaises popenRaises : Bool) (connect : Except String Unit)
    (ext : List WSMsg) (int : List Frame) :
    Except String (HandlerResult × Option Nat) :=
  if pyLower (upgradeHdr.getD "") ≠ "websocket" then
    .ok (.info { status := 200, body := serviceInfoBody port }, server)
  else if prepareRaises then
    .error "ws.prepare raised"
  else if popenRaises then
    .ok (.ws { closedInExcept := true, closedOnFinalize := true,
               errorLogged := true, toInt := [], toExt := [] }, server)
  else
    let r := ensure_whisper_server dead nextPid server
    let p := proxy_websocket connect ext int
    .ok (.ws { closedInExcept := false, closedOnFinalize := true,
               errorLogged := p.errorLogged, toInt := p.toInt,
               toExt := p.toExt }, r.server)

/-- Whether a handler result is a normal return (no escaped exception). -/
def okB {ε α : Type} : Except ε α → Bool
  | .ok _ => true
  | .error _ => false

/-- Whether the external connection is closed by the time the handler has
finished: closed by the except clause or by response finalisation; a
non-upgrade request never opened a websocket; an escaped exception counts
as not closed by the handler. -/
def wsClosedOf : Except String (HandlerResult × Option Nat) → Bool
  | .ok (.ws o, _) => o.closedInExcept || o.closedOnFinalize
  | .ok (.info _, _) => true
  | .error _ => false

/-- Whether the session logged an error. -/
def errorLoggedOf : Except String (HandlerResult × Option Nat) → Bool
  | .ok (.ws o, _) => o.errorLogged
  | .ok (.info _, _) => false
  | .error _ => false

/-! Health endpoint and router (src/railway_wrapper.py lines 30-45). -/

/-- Embedding of health_check (lines 37-45): a 200 JSON response with the
four fields, passing the supervisor state through untouched (the handler
reads nothing but the clock and writes nothing). -/
def health_check (now : Rat) (server : Option Nat) :
    Response × Option Nat :=
  ({ status := 200,
     body := [("status", JVal.str "healthy"),
              ("service", JVal.str "WhisperLive"),
              ("backend", JVal.str "faster_whisper"),
              ("timestamp", JVal.num now)] },
   server)

/-- HTTP methods bound by setup_routes. -/
inductive Method where
  | GET
  | HEAD
deriving DecidableEq, Repr

/-- The two registered handlers. -/
inductive HandlerId where
  | healthCheck
  | websocketHandler
deriving DecidableEq, Repr

/-- The route table registered by setup_routes (lines 30-35). -/
def routes : List (Method × String × HandlerId) :=
  [(Method.GET, "/health", HandlerId.healthCheck),
   (Method.HEAD, "/health", HandlerId.healthCheck),
   (Method.GET, "/", HandlerId.websocketHandler)]

/-- Route resolution: first registered route matching method and path. -/
def resolve (m : Method) (p : String) : Option HandlerId :=
  (routes.find? (fun r => decide (r.1 = m) && decide (r.2.1 = p))).map
    (fun r => r.2.2)

end RailwayWrapper

namespace WhisperApi

open WhisperLive

/-- Supported upload extensions (src/whisper_api_server.py lines 22-24). -/
def ALLOWED_EXTENSIONS : List String :=
  ["wav", "mp3", "m4a", "flac", "aac", "ogg", "wma", "mp4"]

/-- Characters after the last dot of a character list, if any dot occurs;
models Python rsplit applied at the last dot. -/
def tailAfterDot : List Char → Option (List Char)
  | [] => none
  | c :: rest =>
    match tailAfterDot rest with
    | some t => some t
    | none => if c = '.' then some rest else none

/-- Embedding of allowed_file (lines 26-28): the filename contains a dot
and the lowercased text after the last dot is a supported extension. -/
def allowed_file (filename : String) : Bool :=
  match tailAfterDot filename.toList with
  | none => false
  | some ext => ALLOWED_EXTENSIONS.contains (String.mk (ext.map Char.toLower))

/-- The uploaded file of a multipart request, as seen by the handler. -/
structure UploadedFile where
  filename : String
deriving DecidableEq, Repr

/-- The optional form fields read by the handler, as raw strings. -/
structure FormData where
  language : Option String
  temperature : Option String
deriving DecidableEq, Repr

/-- A POST request to the transcribe endpoint: the audio file entry of
request.files, if present, and the form fields. -/
structure TranscribeRequest where
  audioFile : Option UploadedFile
  form : FormData
deriving DecidableEq, Repr

/-- Result of the external model.transcribe call. -/
structure TranscribeResult where
  text : String
  language : String
  segments : List String
deriving DecidableEq, Repr

/-- Embedding of transcribe_audio (src/whisper_api_server.py lines
39-91).  The whole body sits in one try whose except clause returns a 500
response with an error field of the form Transcription failed: message.
The file-presence, empty-filename and extension checks return 400 first;
only then is the temperature form field parsed with the Python float
constructor (line 56), modelled by the pyFloat parameter, whose error
value is the exception message; a missing field defaults to the float
0.0, which reparses without error.  The external model.transcribe call is
the modelTranscribe parameter; the temporary-file bookkeeping has no
bearing on the response. -/
def transcribe_audio (model_size : String)
    (pyFloat : String → Except String Rat)
    (modelTranscribe : String → Rat → Except String TranscribeResult)
    (req : TranscribeRequest) : Response :=
  match req.audioFile with
  | none => { status := 400, body := [("error", JVal.str "No audio file provided")] }
  | some f =>
    if f.filename = "" then
      { status := 400, body := [("error", JVal.str "No file selected")] }
    else if !(allowed_file f.filename) then
      { status := 400, body := [("error", JVal.str "Unsupported file format")] }
    else
      match (match req.form.temperature with
             | none => Except.ok (0 : Rat)
             | some s => pyFloat s) with
      | .error e =>
        { status := 500,
          body := [("error", JVal.str ("Transcription failed: " ++ e))] }
      | .ok temperature =>
        match modelTranscribe (req.form.language.getD "en") temperature with
        | .error e =>
          { status := 500,
            body := [("error", JVal.str ("Transcription failed: " ++ e))] }
        | .ok r =>
          { status := 200,
            body := [("text", JVal.str r.text.trim),
                     ("language", JVal.str r.language),
                     ("segments", JVal.strList r.segments),
                     ("model", JVal.str model_size)] }

/-- Claim C10 as stated: every transcribe request whose temperature field
is present but fails to parse as a float gets a 500 response. -/
def temperatureClaim : Prop :=
  ∀ (model_size : String) (pyFloat : String → Except String Rat)
    (modelTranscribe : String → Rat → Except String TranscribeResult)
    (req : TranscribeRequest) (s e : String),
    req.form.temperature = some s → pyFloat s = Except.error e →
    (transcribe_audio model_size pyFloat modelTranscribe req).status = 500

/-- Float parser that rejects every string, with a fixed message; stands
for the Python float constructor on an unparseable input. -/
def pfReject : String → Except String Rat :=
  fun _ => Except.error "could not convert string to float"

/-- Model call that is never reached in the temperature-failure runs. -/
def mtUnreached : String → Rat → Except String TranscribeResult :=
  fun _ _ => Except.error "unreached"

end WhisperApi

namespace RailwayWrapper

open WhisperLive

theorem client_to_server_data (ext : List Frame) :
    client_to_server (ext.map msgOfFrame) = ext := by
  induction ext with
  | nil => rfl
  | cons m rest ih =>
    cases m <;> simp [msgOfFrame, client_to_server, ih]

theorem server_to_client_id (msgs : List Frame) :
    server_to_client msgs = msgs := by
  induction msgs with
  | nil => rfl
  | cons m rest ih =>
    cases m <;> simp [server_to_client, ih]

/-- Claim C2: both relay directions deliver exactly the received data
messages, in arrival order, with the kind tag (text vs binary) and the
payload preserved.  The external-to-internal direction is stated over an
arbitrary sequence of data frames arriving on the external leg; the
internal-to-external direction over an arbitrary frame sequence from the
internal leg (the websockets iterator only ever yields str or bytes). -/
theorem relay_preserves_messages (ext int : List Frame) :
    client_to_server (ext.map msgOfFrame) = ext ∧ server_to_client int = int :=
  ⟨client_to_server_data ext, server_to_client_id int⟩

/-- Claim C9: in the external-to-internal direction, the forwarded frames
are exactly the data frames of the prefix of the input strictly before
the first ERROR event: every message that is neither TEXT, BINARY nor
ERROR is silently discarded while the loop continues past it, and only an
ERROR event terminates the loop early, discarding the rest. -/
theorem client_to_server_drops_nondata (msgs : List WSMsg) :
    client_to_server msgs
      = (msgs.takeWhile (fun m => !m.isErr)).filterMap frameOf := by
  induction msgs with
  | nil => rfl
  | cons m rest ih =>
    cases m <;>
      simp [client_to_server, WSMsg.isErr, frameOf, List.takeWhile, ih]

theorem runLoop_ext_done (t : Nat) (s : LoopState WSMsg Frame)
    (h : s.done = true) : runLoop extLoopStep t s = s := by
  induction t with
  | zero => rfl
  | succ t ih => simpa [runLoop, extLoopStep, h] using ih

theorem runLoop_int_done (t : Nat) (s : LoopState Frame Frame)
    (h : s.done = true) : runLoop intLoopStep t s = s := by
  induction t with
  | zero => rfl
  | succ t ih => simpa [runLoop, intLoopStep, h] using ih

theorem extLoop_char (t : Nat) :
    ∀ (msgs : List WSMsg) (acc : List Frame),
      (runLoop extLoopStep t ⟨msgs, acc, false⟩).done = decide (extFin msgs ≤ t)
      ∧ (runLoop extLoopStep t ⟨msgs, acc, false⟩).sent
          = acc ++ client_to_server (msgs.take t) := by
  induction t with
  | zero =>
    intro msgs acc
    refine ⟨by simp [runLoop, extFin], by simp [runLoop, client_to_server]⟩
  | succ t ih =>
    intro msgs acc
    cases msgs with
    | nil =>
      have hstep : extLoopStep ⟨([] : List WSMsg), acc, false⟩
          = ⟨[], acc, true⟩ := by simp [extLoopStep]
      rw [runLoop, hstep, runLoop_ext_done t _ rfl]
      exact ⟨by simp [extFin], by simp [client_to_server]⟩
    | cons m rest =>
      cases m with
      | text d =>
        have hstep : extLoopStep ⟨WSMsg.text d :: rest, acc, false⟩
            = ⟨rest, acc ++ [Frame.text d], false⟩ := by simp [extLoopStep]
        rw [runLoop, hstep]
        obtain ⟨h1, h2⟩ := ih rest (acc ++ [Frame.text d])
        refine ⟨?_, ?_⟩
        · rw [h1]; simp [extFin, WSMsg.isErr, List.takeWhile, Nat.succ_le_succ_iff]
        · rw [h2]; simp [client_to_server]
      | binary d =>
        have hstep : extLoopStep ⟨WSMsg.binary d :: rest, acc, false⟩
            = ⟨rest, acc ++ [Frame.binary d], false⟩ := by simp [extLoopStep]
        rw [runLoop, hstep]
        obtain ⟨h1, h2⟩ := ih rest (acc ++ [Frame.binary d])
        refine ⟨?_, ?_⟩
        · rw [h1]; simp [extFin, WSMsg.isErr, List.takeWhile, Nat.succ_le_succ_iff]
        · rw [h2]; simp [client_to_server]
      | error =>
        have hstep : extLoopStep ⟨WSMsg.error :: rest, acc, false⟩
            = ⟨rest, acc, true⟩ := by simp [extLoopStep]
        rw [runLoop, hstep, runLoop_ext_done t _ rfl]
        refine ⟨?_, ?_⟩
        · simp [extFin, WSMsg.isErr, List.takeWhile]
        · simp [client_to_server]
      | other c =>
        have hstep : extLoopStep ⟨WSMsg.other c :: rest, acc, false⟩
            = ⟨rest, acc, false⟩ := by simp [extLoopStep]
        rw [runLoop, hstep]
        obtain ⟨h1, h2⟩ := ih rest acc
        refine ⟨?_, ?_⟩
        · rw [h1]; simp [extFin, WSMsg.isErr, List.takeWhile, Nat.succ_le_succ_iff]
        · rw [h2]; simp [client_to_server]

theorem intLoop_char (t : Nat) :
    ∀ (msgs : List Frame) (acc : List Frame),
      (runLoop intLoopStep t ⟨msgs, acc, false⟩).done = decide (intFin msgs ≤ t)
      ∧ (runLoop intLoopStep t ⟨msgs, acc, false⟩).sent
          = acc ++ server_to_client (msgs.take t) := by
  induction t with
  | zero =>
    intro msgs acc
    refine ⟨by simp [runLoop, intFin], by simp [runLoop, server_to_client]⟩
  | succ t ih =>
    intro msgs acc
    cases msgs with
    | nil =>
      have hstep : intLoopStep ⟨([] : List Frame), acc, false⟩
          = ⟨[], acc, true⟩ := by simp [intLoopStep]
      rw [runLoop, hstep, runLoop_int_done t _ rfl]
      exact ⟨by simp [intFin], by simp [server_to_client]⟩
    | cons m rest =>
      cases m with
      | text d =>
        have hstep : intLoopStep ⟨Frame.text d :: rest, acc, false⟩
            = ⟨rest, acc ++ [Frame.text d], false⟩ := by simp [intLoopStep]
        rw [runLoop, hstep]
        obtain ⟨h1, h2⟩ := ih rest (acc ++ [Frame.text d])
        refine ⟨?_, ?_⟩
        · rw [h1]; simp [intFin, Nat.succ_le_succ_iff]
        · rw [h2]; simp [server_to_client]
      | binary d =>
        have hstep : intLoopStep ⟨Frame.binary d :: rest, acc, false⟩
            = ⟨rest, acc ++ [Frame.binary d], false⟩ := by simp [intLoopStep]
        rw [runLoop, hstep]
        obtain ⟨h1, h2⟩ := ih rest (acc ++ [Frame.binary d])
        refine ⟨?_, ?_⟩
        · rw [h1]; simp [intFin, Nat.succ_le_succ_iff]
        · rw [h2]; simp [server_to_client]

theorem relayRun_pair (ext : List WSMsg) (int : List Frame) (t : Nat) :
    relayRun ext int t
      = (runLoop extLoopStep t ⟨ext, [], false⟩,
         runLoop intLoopStep t ⟨int, [], false⟩) := by
  suffices h : ∀ (t : Nat) (e : LoopState WSMsg Frame)
      (i : LoopState Frame Frame),
      runLoop relayStep t (e, i)
        = (runLoop extLoopStep t e, runLoop intLoopStep t i) by
    exact h t _ _
  intro t
  induction t with
  | zero => intro e i; rfl
  | succ t ih => intro e i; simpa [runLoop, relayStep] using ih _ _

theorem c2s_take_of_fin_le :
    ∀ (msgs : List WSMsg) (t : Nat), extFin msgs ≤ t →
      client_to_server (msgs.take t) = client_to_server msgs := by
  intro msgs
  induction msgs with
  | nil => intro t _; simp [client_to_server]
  | cons m rest ih =>
    intro t ht
    cases m with
    | text d =>
      have hfin : extFin (WSMsg.text d :: rest) = extFin rest + 1 := by
        simp [extFin, List.takeWhile, WSMsg.isErr]
      cases t with
      | zero => rw [hfin] at ht; omega
      | succ u =>
        have hrest : extFin rest ≤ u := by rw [hfin] at ht; omega
        simp [client_to_server, ih u hrest]
    | binary d =>
      have hfin : extFin (WSMsg.binary d :: rest) = extFin rest + 1 := by
        simp [extFin, List.takeWhile, WSMsg.isErr]
      cases t with
      | zero => rw [hfin] at ht; omega
      | succ u =>
        have hrest : extFin rest ≤ u := by rw [hfin] at ht; omega
        simp [client_to_server, ih u hrest]
    | error =>
      have h1 : extFin (WSMsg.error :: rest) = 1 := by
        simp [extFin, List.takeWhile, WSMsg.isErr]
      cases t with
      | zero => rw [h1] at ht; omega
      | succ u => simp [client_to_server]
    | other c =>
      have hfin : extFin (WSMsg.other c :: rest) = extFin rest + 1 := by
        simp [extFin, List.takeWhile, WSMsg.isErr]
      cases t with
      | zero => rw [hfin] at ht; omega
      | succ u =>
        have hrest : extFin rest ≤ u := by rw [hfin] at ht; omega
        simp [client_to_server, ih u hrest]

theorem s2c_take_of_fin_le (msgs : List Frame) (t : Nat)
    (ht : intFin msgs ≤ t) :
    server_to_client (msgs.take t) = server_to_client msgs := by
  have hlen : msgs.length ≤ t := by
    have h : intFin msgs = msgs.length + 1 := rfl
    omega
  rw [List.take_of_length_le hlen]

/-- Claim C7: the gather joining the two relay loops resolves exactly when
both loops have finished, never earlier; and at that point each loop has
forwarded its complete standalone output, so neither loop was cut short
because the other one exited first. -/
theorem relay_completes_after_both (ext : List WSMsg) (int : List Frame)
    (t : Nat) :
    (relayDone (relayRun ext int t) = true
        ↔ max (extFin ext) (intFin int) ≤ t)
    ∧ (relayRun ext int (max (extFin ext) (intFin int))).1.sent
        = client_to_server ext
    ∧ (relayRun ext int (max (extFin ext) (intFin int))).2.sent
        = server_to_client int := by
  refine ⟨?_, ?_, ?_⟩
  · rw [relayDone, relayRun_pair, (extLoop_char t ext []).1,
      (intLoop_char t int []).1]
    simp [max_le_iff]
  · rw [relayRun_pair]
    rw [(extLoop_char (max (extFin ext) (intFin int)) ext []).2]
    rw [c2s_take_of_fin_le ext _ (Nat.le_max_left _ _)]
    simp
  · rw [relayRun_pair]
    rw [(intLoop_char (max (extFin ext) (intFin int)) int []).2]
    rw [s2c_take_of_fin_le int _ (Nat.le_max_right _ _)]
    simp

theorem runLoop_succ_apply {σ : Type} (f : σ → σ) :
    ∀ (t : Nat) (s : σ), runLoop f (t + 1) s = f (runLoop f t s) := by
  intro t
  induction t with
  | zero => intro s; rfl
  | succ t ih =>
    intro s
    rw [runLoop, ih]
    rfl

theorem sessStep_idle (rest : List (Option WSMsg)) (b : Bool) :
    sessStep ⟨none :: rest, [], [], [], false, b⟩
      = ⟨rest, [], [], [], false, true⟩ := by
  cases b <;> simp [sessStep, sessExtStep, sessIntStep]

theorem sessRun_silent_not_done :
    ∀ (t k : Nat) (b : Bool),
      (runLoop sessStep t
        ⟨List.replicate (t + k + 1) (none : Option WSMsg), [], [], [],
         false, b⟩).extDone = false := by
  intro t
  induction t with
  | zero => intro k b; rfl
  | succ t ih =>
    intro k b
    rw [show t + 1 + k + 1 = t + k + 1 + 1 from by omega,
      List.replicate_succ, runLoop, sessStep_idle]
    exact ih k true

theorem sessRun_to_msg :
    ∀ (k : Nat) (d : String) (rest : List (Option WSMsg)) (b : Bool),
      runLoop sessStep k
          ⟨List.replicate k none ++ some (WSMsg.text d) :: rest, [], [], [],
           false, b⟩
        = ⟨some (WSMsg.text d) :: rest, [], [], [], false,
           b || decide (1 ≤ k)⟩ := by
  intro k
  induction k with
  | zero =>
    intro d rest b
    simp [runLoop]
  | succ k ih =>
    intro d rest b
    rw [List.replicate_succ, List.cons_append, runLoop, sessStep_idle, ih]
    have h1 : decide (1 ≤ k + 1) = true :=
      decide_eq_true (Nat.succ_le_succ (Nat.zero_le k))
    rw [h1]
    simp

/-- Claim C3, counterexample: over the closure-coupled session machine
there is no fixed bound B such that the session tears down within B
rounds of the first leg closing.  For any candidate B, let the internal
connection drop at once and let the external peer stay connected but
silent: server_to_client ends, but client_to_server remains blocked in
its async-for on the external leg, gather keeps waiting for it, and B
rounds after the internal close the session is still up. -/
theorem sess_teardown_unbounded : ¬ boundedSessTeardown := by
  rintro ⟨B, h⟩
  have h2 := h (List.replicate (B + 1) none) []
  have hmin : min (List.replicate (B + 1) (none : Option WSMsg)).length
      ([] : List (Option Frame)).length + B = B := by
    rw [List.length_replicate, List.length_nil,
      min_eq_right (Nat.zero_le _), Nat.zero_add]
  rw [hmin] at h2
  have hext := sessRun_silent_not_done B 0 false
  simp only [Nat.add_zero] at hext
  rw [show sessRun (List.replicate (B + 1) none) [] B
      = runLoop sessStep B
          ⟨List.replicate (B + 1) none, [], [], [], false, false⟩ from rfl,
    sessDone, hext] at h2
  simp at h2

/-- Claim C3, amended: the session teardown closes both connections, but
it is gated on both relay loops exiting and is not bounded in terms of
the first leg's close.  If the internal connection drops mid-session,
client_to_server keeps blocking in its async-for on the external leg and
exits only at the external leg's next event — here its first data
message after the drop, whose forward to the closed internal connection
raises ConnectionClosed and is caught, ending the loop: with the peer
idle for k rounds and then sending one message, the session is still up
at round k and tears down at round k + 1; a connected external peer that
stays silent keeps the session up through every such horizon k. -/
theorem sess_teardown_on_next_external_event (k : Nat) (d : String)
    (rest : List (Option WSMsg)) :
    sessDone (sessRun (List.replicate k none ++ some (WSMsg.text d) :: rest)
        [] (k + 1)) = true
    ∧ sessDone (sessRun (List.replicate k none ++ some (WSMsg.text d) :: rest)
        [] k) = false
    ∧ sessDone (sessRun (List.replicate (k + 1) (none : Option WSMsg)) [] k)
        = false := by
  refine ⟨?_, ?_, ?_⟩
  · show sessDone (runLoop sessStep (k + 1)
      ⟨List.replicate k none ++ some (WSMsg.text d) :: rest, [], [], [],
       false, false⟩) = true
    rw [runLoop_succ_apply, sessRun_to_msg k d rest false]
    cases hk : decide (1 ≤ k) <;>
      simp [hk, sessStep, sessExtStep, sessIntStep, sessDone]
  · show sessDone (runLoop sessStep k
      ⟨List.replicate k none ++ some (WSMsg.text d) :: rest, [], [], [],
       false, false⟩) = false
    rw [sessRun_to_msg k d rest false]
    simp [sessDone]
  · have hext := sessRun_silent_not_done k 0 false
    simp only [Nat.add_zero] at hext
    show sessDone (runLoop sessStep k
      ⟨List.replicate (k + 1) none, [], [], [], false, false⟩) = false
    rw [sessDone, hext]
    simp

/-- Claim C4: a sequential ensure_whisper_server call spawns exactly when
no process is tracked or the tracked process has exited; a spawning call
starts the backend with the fixed internal-port and backend arguments,
tracks the new process and sleeps the fixed 3-second grace period before
returning; a non-spawning call returns at once (no sleep), passing no
spawn arguments and leaving the tracked process unchanged. -/
theorem ensure_spawn_condition (dead : Nat → Option Int) (nextPid : Nat)
    (server : Option Nat) :
    ((ensure_whisper_server dead nextPid server).spawnedNew = true
        ↔ server = none ∨ ∃ p, server = some p ∧ (dead p).isSome = true)
    ∧ ((ensure_whisper_server dead nextPid server).spawnedNew = true
          ∧ (ensure_whisper_server dead nextPid server).args = some spawnArgs
          ∧ (ensure_whisper_server dead nextPid server).sleepSeconds = 3
          ∧ (ensure_whisper_server dead nextPid server).server = some nextPid
        ∨ (ensure_whisper_server dead nextPid server).spawnedNew = false
          ∧ (ensure_whisper_server dead nextPid server).args = none
          ∧ (ensure_whisper_server dead nextPid server).sleepSeconds = 0
          ∧ (ensure_whisper_server dead nextPid server).server = server) := by
  cases server with
  | none => simp [ensure_whisper_server, ensureCond]
  | some p =>
    cases hd : (dead p).isSome with
    | true => simp [ensure_whisper_server, ensureCond, hd]
    | false => simp [ensure_whisper_server, ensureCond, hd]

/-- Claim C5: a GET or HEAD request to the health path resolves to the
health_check handler, which answers 200 with a JSON body carrying exactly
the fields status, service, backend and timestamp, and leaves the
supervisor state untouched — in particular it does so for every
supervisor state, including one where no backend was ever started. -/
theorem health_check_contract (m : Method) (now : Rat) (server : Option Nat)
    (h : m = Method.GET ∨ m = Method.HEAD) :
    resolve m "/health" = some HandlerId.healthCheck
    ∧ (health_check now server).1.status = 200
    ∧ (health_check now server).1.body.map Prod.fst
        = ["status", "service", "backend", "timestamp"]
    ∧ (health_check now server).2 = server := by
  rcases h with rfl | rfl
  · exact ⟨rfl, rfl, rfl, rfl⟩
  · exact ⟨rfl, rfl, rfl, rfl⟩

theorem health_check_contract_witness :
    resolve Method.GET "/health" = some HandlerId.healthCheck
    ∧ (health_check 0 none).1.status = 200
    ∧ (health_check 0 none).1.body.map Prod.fst
        = ["status", "service", "backend", "timestamp"]
    ∧ (health_check 0 none).2 = none :=
  health_check_contract Method.GET 0 none (Or.inl rfl)

/-- Claim C8: a GET to the root path whose upgrade header does not say
websocket resolves to websocket_handler, which returns the 200 JSON
service-info body, performs no relaying and leaves the supervisor state
unchanged — no backend spawn is triggered. -/
theorem non_upgrade_get_no_spawn (port nextPid : Nat) (hdr : Option String)
    (server : Option Nat) (dead : Nat → Option Int)
    (prepareRaises popenRaises : Bool) (connect : Except String Unit)
    (ext : List WSMsg) (int : List Frame)
    (h : pyLower (hdr.getD "") ≠ "websocket") :
    resolve Method.GET "/" = some HandlerId.websocketHandler
    ∧ websocket_handler port nextPid hdr server dead prepareRaises popenRaises
          connect ext int
        = .ok (.info { status := 200, body := serviceInfoBody port }, server)
    ∧ (serviceInfoBody port).map Prod.fst
        = ["service", "status", "backend", "websocket_url"] := by
  refine ⟨rfl, ?_, rfl⟩
  simp [websocket_handler, h]

theorem non_upgrade_get_no_spawn_witness :
    resolve Method.GET "/" = some HandlerId.websocketHandler
    ∧ websocket_handler 9090 0 none none noneDead false false (Except.ok ())
          [] []
        = .ok (.info { status := 200, body := serviceInfoBody 9090 }, none)
    ∧ (serviceInfoBody 9090).map Prod.fst
        = ["service", "status", "backend", "websocket_url"] :=
  non_upgrade_get_no_spawn 9090 0 none none noneDead false false
    (Except.ok ()) [] [] (by decide)

/-- Claim C6: for an upgrade request whose websocket was prepared, no
exception escapes websocket_handler, and the external connection is
closed by the time the handler has finished on every path; when
ensure_whisper_server raises out of subprocess.Popen, the except clause
closes the external websocket, logs the error and leaves the supervisor
state unchanged; when the internal connect fails instead, the error is
caught and logged inside proxy_websocket and the handler still completes
normally. -/
theorem websocket_handler_error_boundary (port nextPid : Nat)
    (hdr : Option String) (server : Option Nat) (dead : Nat → Option Int)
    (popenRaises : Bool) (connect : Except String Unit)
    (ext : List WSMsg) (int : List Frame)
    (hup : pyLower (hdr.getD "") = "websocket") :
    okB (websocket_handler port nextPid hdr server dead false popenRaises
        connect ext int) = true
    ∧ wsClosedOf (websocket_handler port nextPid hdr server dead false
        popenRaises connect ext int) = true
    ∧ (popenRaises = true →
        websocket_handler port nextPid hdr server dead false popenRaises
            connect ext int
          = .ok (.ws { closedInExcept := true, closedOnFinalize := true,
                       errorLogged := true, toInt := [], toExt := [] },
                 server))
    ∧ (popenRaises = false → okB connect = false →
        errorLoggedOf (websocket_handler port nextPid hdr server dead false
            popenRaises connect ext int) = true) := by
  have hcond : ¬ (pyLower (hdr.getD "") ≠ "websocket") := by simp [hup]
  cases popenRaises with
  | false =>
    cases connect with
    | error e =>
      simp [websocket_handler, hcond, okB, wsClosedOf, errorLoggedOf,
        proxy_websocket]
    | ok u =>
      simp [websocket_handler, hcond, okB, wsClosedOf, errorLoggedOf,
        proxy_websocket]
  | true =>
    simp [websocket_handler, hcond, okB, wsClosedOf, errorLoggedOf]

theorem websocket_handler_error_boundary_witness :
    okB (websocket_handler 9090 0 (some "websocket") none noneDead false true
        (Except.ok ()) [] []) = true
    ∧ wsClosedOf (websocket_handler 9090 0 (some "websocket") none noneDead
        false true (Except.ok ()) [] []) = true
    ∧ (true = true →
        websocket_handler 9090 0 (some "websocket") none noneDead false true
            (Except.ok ()) [] []
          = .ok (.ws { closedInExcept := true, closedOnFinalize := true,
                       errorLogged := true, toInt := [], toExt := [] },
                 none))
    ∧ (true = false → okB (Except.ok () : Except String Unit) = false →
        errorLoggedOf (websocket_handler 9090 0 (some "websocket") none
            noneDead false true (Except.ok ()) [] []) = true) :=
  websocket_handler_error_boundary 9090 0 (some "websocket") none noneDead
    true (Except.ok ()) [] [] (by decide)

end RailwayWrapper

namespace WhisperApi

open WhisperLive

/-- Claim C10, counterexample: the claim quantifies over every POST whose
temperature field is present and unparseable, but a request that also
fails the earlier audio-file validation gets the 400 response of that
check, because the file checks run before the temperature parse.
Concretely, a request with no audio file and temperature abc yields 400,
not 500. -/
theorem temperature_claim_false : ¬ temperatureClaim := by
  intro h
  have h2 := h "medium" pfReject mtUnreached
      { audioFile := none,
        form := { language := none, temperature := some "abc" } }
      "abc" "could not convert string to float" rfl rfl
  have h3 : (transcribe_audio "medium" pfReject mtUnreached
      { audioFile := none,
        form := { language := none, temperature := some "abc" } }).status
      = 400 := rfl
  rw [h3] at h2
  omega

/-- Claim C10, amended: for every POST to the transcribe endpoint that
passes the audio-file validation (file present, nonempty filename,
allowed extension) and whose temperature form field is present but not
parseable as a float, the endpoint returns a 500 response whose error
body is the Transcription failed message carrying the parse exception
text, rather than a 400 validation error — the float call sits inside the
catch-all try of the handler. -/
theorem transcribe_bad_temperature_500 (model_size : String)
    (pyFloat : String → Except String Rat)
    (modelTranscribe : String → Rat → Except String TranscribeResult)
    (f : UploadedFile) (form : FormData) (s e : String)
    (hname : f.filename ≠ "") (hext : allowed_file f.filename = true)
    (htemp : form.temperature = some s)
    (hpf : pyFloat s = Except.error e) :
    transcribe_audio model_size pyFloat modelTranscribe
        { audioFile := some f, form := form }
      = { status := 500,
          body := [("error", JVal.str ("Transcription failed: " ++ e))] } := by
  simp [transcribe_audio, hname, hext, htemp, hpf]

theorem transcribe_bad_temperature_500_witness :
    transcribe_audio "medium" pfReject mtUnreached
        { audioFile := some { filename := "a.wav" },
          form := { language := none, temperature := some "abc" } }
      = { status := 500,
          body := [("error", JVal.str ("Transcription failed: "
            ++ "could not convert string to float"))] } :=
  transcribe_bad_temperature_500 "medium" pfReject mtUnreached
    { filename := "a.wav" } { language := none, temperature := some "abc" }
    "abc" "could not convert string to float"
    (by decide) (by decide) rfl rfl

end WhisperApi

namespace RailwayWrapper

theorem spawnInv_init : SpawnInv initSys := by
  unfold SpawnInv initSys
  exact ⟨fun _ => rfl, fun p hp => by simp at hp, fun j hj => by simp at hj⟩

theorem liveInv_init (dead : Nat → Option Int) : LiveInv dead initSys := by
  unfold LiveInv initSys
  exact ⟨fun p hp => by simp at hp, List.nodup_nil, fun p hp => by simp at hp⟩

theorem stepTask_server_isSome (dead : Nat → Option Int) (N : Nat)
    (s : SupSystem) (i : Nat) (h : s.whisper_server.isSome = true) :
    ((stepTask dead N s i).whisper_server).isSome = true := by
  by_cases hiN : i < N
  · cases htask : s.tasks i with
    | zero =>
      by_cases hcond : ensureCond dead s.whisper_server = true
      · simp [stepTask, hiN, htask, hcond]
      · simpa [stepTask, hiN, htask, hcond] using h
    | succ m =>
      cases m with
      | zero => simpa [stepTask, hiN, htask] using h
      | succ k => simpa [stepTask, hiN, htask] using h
  · simpa [stepTask, hiN] using h

theorem foldl_server_isSome (dead : Nat → Option Int) (N : Nat) :
    ∀ (sched : List Nat) (s : SupSystem),
      s.whisper_server.isSome = true →
      ((sched.foldl (stepTask dead N) s).whisper_server).isSome = true := by
  intro sched
  induction sched with
  | nil => intro s h; simpa using h
  | cons a rest ih =>
    intro s h
    rw [List.foldl_cons]
    exact ih _ (stepTask_server_isSome dead N s a h)

theorem spawnInv_step (dead : Nat → Option Int) (N : Nat)
    (halive : ∀ p, dead p = none) (s : SupSystem) (i : Nat)
    (hs : SpawnInv s) : SpawnInv (stepTask dead N s i) := by
  obtain ⟨h1, h2, h3⟩ := hs
  by_cases hiN : i < N
  · cases htask : s.tasks i with
    | zero =>
      by_cases hcond : ensureCond dead s.whisper_server = true
      · have hserver : s.whisper_server = none := by
          cases hsv : s.whisper_server with
          | none => rfl
          | some p =>
            rw [hsv] at hcond
            simp [ensureCond, halive p] at hcond
        have hred : stepTask dead N s i
            = { whisper_server := some s.nextPid, nextPid := s.nextPid + 1,
                spawned := s.spawned ++ [s.nextPid],
                tasks := fun j => if j = i then 1 else s.tasks j } := by
          simp [stepTask, hiN, htask, hcond]
        rw [hred]
        refine ⟨fun hnone => (Option.some_ne_none _ hnone).elim, ?_, ?_⟩
        · intro p hp
          have hpe : p = s.nextPid := (Option.some.inj hp).symm
          subst hpe
          rw [h1 hserver]
          rfl
        · intro j hj
          rfl
      · have hsome : s.whisper_server.isSome = true := by
          cases hsv : s.whisper_server with
          | none => rw [hsv] at hcond; simp [ensureCond] at hcond
          | some p => simp
        have hred : stepTask dead N s i
            = { s with tasks := fun j => if j = i then 2 else s.tasks j } := by
          simp [stepTask, hiN, htask, hcond]
        rw [hred]
        exact ⟨h1, h2, fun j _ => hsome⟩
    | succ m =>
      have hsome : s.whisper_server.isSome = true := h3 i (by rw [htask]; simp)
      cases m with
      | zero =>
        have hred : stepTask dead N s i
            = { s with tasks := fun j => if j = i then 2 else s.tasks j } := by
          simp [stepTask, hiN, htask]
        rw [hred]
        exact ⟨h1, h2, fun j _ => hsome⟩
      | succ k =>
        have hred : stepTask dead N s i = s := by
          simp [stepTask, hiN, htask]
        rw [hred]
        exact ⟨h1, h2, h3⟩
  · have hred : stepTask dead N s i = s := by simp [stepTask, hiN]
    rw [hred]
    exact ⟨h1, h2, h3⟩

theorem spawnInv_run (dead : Nat → Option Int) (N : Nat)
    (halive : ∀ p, dead p = none) :
    ∀ (sched : List Nat) (s : SupSystem),
      SpawnInv s → SpawnInv (sched.foldl (stepTask dead N) s) := by
  intro sched
  induction sched with
  | nil => intro s hs; exact hs
  | cons a rest ih =>
    intro s hs
    rw [List.foldl_cons]
    exact ih _ (spawnInv_step dead N halive s a hs)

theorem stepTask_check_isSome (dead : Nat → Option Int) (N : Nat)
    (s : SupSystem) (i : Nat) (hiN : i < N)
    (hs : SpawnInv s) :
    ((stepTask dead N s i).whisper_server).isSome = true := by
  obtain ⟨h1, h2, h3⟩ := hs
  cases htask : s.tasks i with
  | zero =>
    by_cases hcond : ensureCond dead s.whisper_server = true
    · simp [stepTask, hiN, htask, hcond]
    · have hsome : s.whisper_server.isSome = true := by
        cases hsv : s.whisper_server with
        | none => rw [hsv] at hcond; simp [ensureCond] at hcond
        | some p => simp
      simpa [stepTask, hiN, htask, hcond] using hsome
  | succ m =>
    have hsome : s.whisper_server.isSome = true := h3 i (by rw [htask]; simp)
    cases m with
    | zero => simpa [stepTask, hiN, htask] using hsome
    | succ k => simpa [stepTask, hiN, htask] using hsome

theorem server_isSome_after (dead : Nat → Option Int) (N : Nat)
    (halive : ∀ p, dead p = none) :
    ∀ (sched : List Nat) (s : SupSystem) (i : Nat), i ∈ sched → i < N →
      SpawnInv s →
      ((sched.foldl (stepTask dead N) s).whisper_server).isSome = true := by
  intro sched
  induction sched with
  | nil => intro s i hi; simp at hi
  | cons a rest ih =>
    intro s i hi hiN hs
    rw [List.foldl_cons]
    rcases List.mem_cons.mp hi with heq | hmem
    · subst heq
      exact foldl_server_isSome dead N rest _
        (stepTask_check_isSome dead N s i hiN hs)
    · exact ih _ i hmem hiN (spawnInv_step dead N halive s a hs)

theorem liveInv_step (dead : Nat → Option Int) (N : Nat) (s : SupSystem)
    (i : Nat) (hs : LiveInv dead s) : LiveInv dead (stepTask dead N s i) := by
  obtain ⟨h1, h2, h3⟩ := hs
  by_cases hiN : i < N
  · cases htask : s.tasks i with
    | zero =>
      by_cases hcond : ensureCond dead s.whisper_server = true
      · have hred : stepTask dead N s i
            = { whisper_server := some s.nextPid, nextPid := s.nextPid + 1,
                spawned := s.spawned ++ [s.nextPid],
                tasks := fun j => if j = i then 1 else s.tasks j } := by
          simp [stepTask, hiN, htask, hcond]
        rw [hred]
        refine ⟨?_, ?_, ?_⟩
        · intro p hp
          rcases List.mem_append.mp hp with hpold | hpnew
          · exact Nat.lt_succ_of_lt (h1 p hpold)
          · simp at hpnew
            subst hpnew
            exact Nat.lt_succ_self _
        · rw [List.nodup_append]
          refine ⟨h2, List.nodup_singleton _, ?_⟩
          intro x hx hx2
          simp at hx2
          subst hx2
          exact absurd (h1 _ hx) (by omega)
        · intro p hp hne
          rcases List.mem_append.mp hp with hpold | hpnew
          · by_cases hps : s.whisper_server = some p
            · rw [hps] at hcond
              simpa [ensureCond] using hcond
            · exact h3 p hpold hps
          · simp at hpnew
            subst hpnew
            exact absurd rfl hne
      · have hred : stepTask dead N s i
            = { s with tasks := fun j => if j = i then 2 else s.tasks j } := by
          simp [stepTask, hiN, htask, hcond]
        rw [hred]
        exact ⟨h1, h2, h3⟩
    | succ m =>
      cases m with
      | zero =>
        have hred : stepTask dead N s i
            = { s with tasks := fun j => if j = i then 2 else s.tasks j } := by
          simp [stepTask, hiN, htask]
        rw [hred]
        exact ⟨h1, h2, h3⟩
      | succ k =>
        have hred : stepTask dead N s i = s := by
          simp [stepTask, hiN, htask]
        rw [hred]
        exact ⟨h1, h2, h3⟩
  · have hred : stepTask dead N s i = s := by simp [stepTask, hiN]
    rw [hred]
    exact ⟨h1, h2, h3⟩

theorem liveInv_run (dead : Nat → Option Int) (N : Nat) :
    ∀ (sched : List Nat) (s : SupSystem),
      LiveInv dead s → LiveInv dead (sched.foldl (stepTask dead N) s) := by
  intro sched
  induction sched with
  | nil => intro s hs; exact hs
  | cons a rest ih =>
    intro s hs
    rw [List.foldl_cons]
    exact ih _ (liveInv_step dead N s a hs)

theorem nodup_all_eq_length_le_one (l : List Nat) (c : Nat)
    (hnd : l.Nodup) (hall : ∀ x ∈ l, x = c) : l.length ≤ 1 := by
  cases l with
  | nil => simp
  | cons a tail =>
    cases tail with
    | nil => simp
    | cons b tail2 =>
      exfalso
      have ha := hall a (by simp)
      have hb := hall b (by simp)
      rcases List.nodup_cons.mp hnd with ⟨hnotin, _⟩
      exact hnotin (by rw [ha, ← hb]; simp)

theorem liveCount_le_one (dead : Nat → Option Int) (s : SupSystem)
    (hs : LiveInv dead s) : liveCount dead s ≤ 1 := by
  obtain ⟨h1, h2, h3⟩ := hs
  unfold liveCount
  cases hsv : s.whisper_server with
  | none =>
    have hempty : s.spawned.filter (fun p => (dead p).isNone) = [] := by
      rw [List.filter_eq_nil_iff]
      intro p hp
      have hdead := h3 p hp (by rw [hsv]; exact fun hcontra => by cases hcontra)
      simp [Option.isNone_iff_eq_none]
      exact Option.isSome_iff_exists.mp hdead |>.elim fun v hv => by simp [hv]
    rw [hempty]
    simp
  | some c =>
    apply nodup_all_eq_length_le_one _ c (List.Nodup.filter _ h2)
    intro x hx
    have hxmem := List.mem_of_mem_filter hx
    have hxlive := List.of_mem_filter hx
    simp only [] at hxlive
    by_contra hne
    have hsome := h3 x hxmem (by
      rw [hsv]
      intro hcontra
      exact hne (Option.some.inj hcontra).symm)
    rw [Option.isSome_iff_ne_none] at hsome
    rw [Option.isNone_iff_eq_none] at hxlive
    exact hsome hxlive

/-- Claim C1: under the cooperative asyncio scheduler the check-and-spawn
block of ensure_whisper_server contains no await point, so any
interleaving of N concurrent upgrade handlers arriving before the backend
has started spawns the backend exactly once (here for every schedule that
activates at least one of the N tasks, in a window where the spawned
process does not exit); and for an arbitrary poll map, every reachable
supervisor state has at most one spawned backend process still alive. -/
theorem ensure_spawn_serialized (N : Nat) (sched : List Nat) (i : Nat)
    (dead dead2 : Nat → Option Int) (hmem : i ∈ sched) (hiN : i < N)
    (halive : ∀ p, dead p = none) :
    (runSched dead N sched).spawned.length = 1
    ∧ liveCount dead2 (runSched dead2 N sched) ≤ 1 := by
  constructor
  · have hinv := spawnInv_run dead N halive sched initSys spawnInv_init
    have hsome := server_isSome_after dead N halive sched initSys i hmem hiN
      spawnInv_init
    obtain ⟨p, hp⟩ := Option.isSome_iff_exists.mp hsome
    have hsp := hinv.2.1 p hp
    show (sched.foldl (stepTask dead N) initSys).spawned.length = 1
    rw [hsp]
    rfl
  · exact liveCount_le_one dead2 _
      (liveInv_run dead2 N sched initSys (liveInv_init dead2))

theorem ensure_spawn_serialized_witness :
    (runSched noneDead 2 [0, 1, 0]).spawned.length = 1
    ∧ liveCount noneDead (runSched noneDead 2 [0, 1, 0]) ≤ 1 :=
  ensure_spawn_serialized 2 [0, 1, 0] 0 noneDead noneDead (by decide)
    (by decide) (fun p => rfl)

end RailwayWrapper
